import Mathlib

/-!
Verification of the meshgram bridge (`src/main.py`) against its specification.

The script relays text between a Meshtastic mesh and a Telegram group.  We give a
shallow embedding of its pure core: the whitelist dictionaries, the identifier
codec helpers, the mesh-to-chat handler `on_meshtastic_receive`, and the
chat-to-mesh handler `telegram_to_mesh`.  Outbound I/O is modelled by returning
the list of calls the handler would make, in order.  Python `dict`s built by
iteration are modelled by `pyDict`, where a later entry for the same key
silently overwrites an earlier one, exactly as in CPython.
-/

/-- Lookup in a Python `dict` built by inserting the list's pairs in order:
a later pair with the same key overwrites an earlier one ("last wins"). -/
def pyDict : List (String × String) → String → Option String
  | [], _ => none
  | (k, v) :: t, key =>
    match pyDict t key with
    | some r => some r
    | none => if k = key then some v else none

/-- The dict comprehension `{node_id: name for name, node_id in d.items()}`
from `src/main.py` line 49: each pair is swapped, iteration order kept. -/
def swapPairs (l : List (String × String)) : List (String × String) :=
  l.map (fun p => (p.2, p.1))

/-- `ALLOWED_NODES` (src/main.py lines 43-46): nickname to node id, in
source order. -/
def ALLOWED_NODES : List (String × String) :=
  [("MSH1", "!deadbeef"), ("MSH2", "!42babe42")]

/-- `NODE_ID_TO_NAME` (src/main.py line 49): the reverse view, built by the
dict comprehension over `ALLOWED_NODES`. -/
def NODE_ID_TO_NAME : List (String × String) := swapPairs ALLOWED_NODES

/-- `MESHTASTIC_BROADCAST_ID = int("ffffffff", 16)` (src/main.py line 61). -/
def MESHTASTIC_BROADCAST_ID : Nat := 4294967295

/-- The characters removed by Python `str.strip()` (ASCII whitespace; the
unicode whitespace Python also strips is irrelevant to the configuration
strings involved here). -/
def isPyWS (c : Char) : Bool :=
  c = ' ' || c = '\t' || c = '\n' || c = '\r' || c = '\x0b' || c = '\x0c'

/-- Python `s.strip()`. -/
def pyStrip (s : String) : String :=
  String.mk (((s.data.dropWhile isPyWS).reverse.dropWhile isPyWS).reverse)

/-- ASCII case folding of one character, as Python `str.lower()` performs on
the ASCII strings involved here. -/
def asciiLower (c : Char) : Char :=
  if 'A' ≤ c && c ≤ 'Z' then Char.ofNat (c.toNat + 32) else c

/-- Python `s.lower()` restricted to ASCII input. -/
def pyLower (s : String) : String := String.mk (s.data.map asciiLower)

/-! ## Identifier codec (src/main.py lines 67-80)

Numbers are handled through explicit digit lists.  `digitsLE` is a fuel-based
little-endian digit expansion (so that it reduces in the kernel); it is proved
equal to Mathlib's `Nat.digits`. -/

/-- Little-endian base-`b` digits of `n`, with explicit fuel. -/
def digitsLEAux (b : Nat) : Nat → Nat → List Nat
  | _, 0 => []
  | 0, _ + 1 => []
  | f + 1, n + 1 => ((n + 1) % b) :: digitsLEAux b f ((n + 1) / b)

/-- Little-endian base-`b` digits of `n` (empty for `n = 0`). -/
def digitsLE (b n : Nat) : List Nat := digitsLEAux b n n

/-- The character Python uses for hex digit value `d` in `format(-, "x")`:
`0`-`9` then lowercase `a`-`f`. -/
def hexDigitChar (d : Nat) : Char :=
  if d < 10 then Char.ofNat (48 + d) else Char.ofNat (87 + d)

/-- The character for decimal digit value `d`. -/
def decDigitChar (d : Nat) : Char := Char.ofNat (48 + d)

/-- The value of a hex digit character, as accepted by Python `int(-, 16)`
(both cases); `none` on any other character. -/
def hexDigitVal? (c : Char) : Option Nat :=
  if '0' ≤ c && c ≤ '9' then some (c.toNat - 48)
  else if 'a' ≤ c && c ≤ 'f' then some (c.toNat - 87)
  else if 'A' ≤ c && c ≤ 'F' then some (c.toNat - 55)
  else none

/-- The value of a decimal digit character; `none` otherwise. -/
def decDigitVal? (c : Char) : Option Nat :=
  if '0' ≤ c && c ≤ '9' then some (c.toNat - 48) else none

/-- Read a list of digit characters through `dv`, failing on the first
non-digit. -/
def parseDigits (dv : Char → Option Nat) : List Char → Option (List Nat)
  | [] => some []
  | c :: cs =>
    match dv c, parseDigits dv cs with
    | some d, some ds => some (d :: ds)
    | _, _ => none

/-- Python `int(s, 16)` on a plain string of hex digits (no sign, no `0x`, no
underscores — none occur in this program), `none` where Python would raise
`ValueError`. -/
def pyInt16 (cs : List Char) : Option Nat :=
  match parseDigits hexDigitVal? cs with
  | some ds => if ds.isEmpty then none else some (Nat.ofDigits 16 ds.reverse)
  | none => none

/-- Python `int(s)` on a plain string of decimal digits, `none` where Python
would raise `ValueError`. -/
def pyInt10 (cs : List Char) : Option Nat :=
  match parseDigits decDigitVal? cs with
  | some ds => if ds.isEmpty then none else some (Nat.ofDigits 10 ds.reverse)
  | none => none

/-- Python `str(x)` for a natural number. -/
def decStr (x : Nat) : String :=
  if x = 0 then "0" else String.mk ((digitsLE 10 x).reverse.map decDigitChar)

/-- Python `format(x, "08x")`: lowercase hex, left-padded with zeros to at
least eight characters, never truncated. -/
def format08x (x : Nat) : String :=
  let ds := (digitsLE 16 x).reverse.map hexDigitChar
  String.mk (List.replicate (8 - ds.length) '0' ++ ds)

/-- `node_id_to_telegram_id` (src/main.py lines 67-72):
`str(int(node_id[1:], 16))`; `none` where `int` would raise. -/
def node_id_to_telegram_id (node_id : String) : Option String :=
  (pyInt16 (node_id.data.drop 1)).map decStr

/-- `telegram_id_to_node_id` (src/main.py lines 75-80):
`"!" + format(int(telegram_id), "08x")`; `none` where `int` would raise. -/
def telegram_id_to_node_id (telegram_id : String) : Option String :=
  (pyInt10 telegram_id.data).map (fun n => String.mk ('!' :: (format08x n).data))

/-! ## Mesh-to-chat relay (src/main.py lines 87-110) -/

/-- The fields of a received Meshtastic packet the handler reads.  `fromId`
is `packet.get("fromId")`, `toDest` is `packet.get("to")` (`none` when the
key is missing), and `payload` is the text `packet.get("decoded", {})
.get("payload", b"")` decodes to with `errors="ignore"` — `none` models a
missing `decoded`/`payload` key, which the source defaults to `b""`. -/
structure Packet where
  fromId : Option String
  toDest : Option Nat
  payload : Option String

/-- `on_meshtastic_receive` (src/main.py lines 87-110), returning the list of
message texts handed to `send_to_telegram`.  `None` (a missing `fromId`) is
never a key of `NODE_ID_TO_NAME`, so the membership test fails for it. -/
def on_meshtastic_receive (p : Packet) : List String :=
  match p.fromId with
  | none => []
  | some from_id =>
    match pyDict NODE_ID_TO_NAME from_id with
    | none => []
    | some _ =>
      if p.toDest = some MESHTASTIC_BROADCAST_ID then []
      else
        let text := pyStrip (p.payload.getD "")
        if text = "" then []
        else
          let sender_name := (pyDict NODE_ID_TO_NAME from_id).getD from_id
          ["[" ++ sender_name ++ "] " ++ text]

/-! ## Chat-to-mesh relay (src/main.py lines 127-153)

Outbound sends are the pairs `(message_body, destinationId)` passed to
`iface.sendText`, in order.  `fails d = true` models `sendText` raising for
destination `d`; a raised exception propagates out of the `for` loop, so the
remaining destinations are not attempted. -/

/-- `text[1:].split(" ")[0]` (src/main.py line 139): the characters after the
marker up to the first space (exactly `' '`, not other whitespace). -/
def pyTargetToken (text : String) : String :=
  String.mk ((text.data.drop 1).takeWhile (fun c => c ≠ ' '))

/-- `text[len(target_name) + 2:]` (src/main.py line 140). -/
def pyMessageBody (text : String) : String :=
  String.mk (text.data.drop ((pyTargetToken text).data.length + 2))

/-- The `for node_id in ALLOWED_NODES.values()` loop (src/main.py lines
147-148): destinations for which `sendText` is invoked.  A raising send is
still an invocation, but aborts the rest of the loop. -/
def sendAllLoop (fails : String → Bool) : List String → List String
  | [] => []
  | d :: ds => if fails d then [d] else d :: sendAllLoop fails ds

/-- `telegram_to_mesh` (src/main.py lines 127-153), returning the
`(message_body, destinationId)` arguments of the `iface.sendText` calls made.
`groupId` is the configured `TELEGRAM_GROUP_ID`, `chatId` is
`update.effective_chat.id`, `rawText` is `update.message.text`. -/
def telegram_to_mesh (groupId chatId : Int) (rawText : String)
    (fails : String → Bool) : List (String × String) :=
  if chatId ≠ groupId then []
  else
    match (pyStrip rawText).data with
    | '@' :: _ =>
      if pyMessageBody (pyStrip rawText) = "" then []
      else if pyLower (pyTargetToken (pyStrip rawText)) = "all" then
        (sendAllLoop fails (ALLOWED_NODES.map Prod.snd)).map
          (fun d => (pyMessageBody (pyStrip rawText), d))
      else
        match pyDict ALLOWED_NODES (pyTargetToken (pyStrip rawText)) with
        | some node_id => [(pyMessageBody (pyStrip rawText), node_id)]
        | none => []
    | _ => []

/-! ## Further definitions used by the claims -/

/-- The sixteen characters of a canonical (lowercase) hex identifier digit:
`0`-`9` followed by `a`-`f`. -/
def lowerHexChars : List Char := (List.range 16).map hexDigitChar

/-- The digit value of a hex character (0 for non-digits). -/
def hexVal (c : Char) : Nat := (hexDigitVal? c).getD 0

/-- The canonical textual form of a `NodeIdentifier` per the spec data model:
the marker followed by exactly eight lowercase hex digits. -/
def isCanonicalNodeId (s : String) : Bool :=
  match s.data with
  | c :: cs => c == '!' && cs.length == 8 && cs.all (fun x => decide (x ∈ lowerHexChars))
  | [] => false

/-- Modelled from the spec (§4.4 step 3): "Parse target token: the substring
after the marker up to (not including) the first whitespace character."  The
source instead takes characters up to the first space only; this definition
exists to compare the two (claim C7). -/
def specTargetToken (text : String) : String :=
  String.mk ((text.data.drop 1).takeWhile (fun c => !isPyWS c))

/-- Modelled from the spec (§4.4 step 3): "Parse message body: everything
after the first whitespace following the target token." -/
def specMessageBody (text : String) : String :=
  String.mk (((text.data.drop 1).dropWhile (fun c => !isPyWS c)).drop 1)

/-- The chat-to-mesh relay with the spec's whitespace-based parse substituted
for the source's space-based parse, everything else as in the source; used to
compare the two behaviours (claim C7). -/
def telegram_to_mesh_specParse (groupId chatId : Int) (rawText : String)
    (fails : String → Bool) : List (String × String) :=
  if chatId ≠ groupId then []
  else
    match (pyStrip rawText).data with
    | '@' :: _ =>
      if specMessageBody (pyStrip rawText) = "" then []
      else if pyLower (specTargetToken (pyStrip rawText)) = "all" then
        (sendAllLoop fails (ALLOWED_NODES.map Prod.snd)).map
          (fun d => (specMessageBody (pyStrip rawText), d))
      else
        match pyDict ALLOWED_NODES (specTargetToken (pyStrip rawText)) with
        | some node_id => [(specMessageBody (pyStrip rawText), node_id)]
        | none => []
    | _ => []

/-- A whitelist mapping whose reverse view would collide: two nicknames for
the same node identifier (claim C4). -/
def dupIdRegistry : List (String × String) := [("A", "!deadbeef"), ("B", "!deadbeef")]

/-! ## Digit arithmetic lemmas -/

theorem digitsLEAux_eq_digits (b : Nat) (hb : 1 < b) :
    ∀ f n, n ≤ f → digitsLEAux b f n = Nat.digits b n := by
  intro f
  induction f with
  | zero =>
    intro n hn
    interval_cases n
    simp [digitsLEAux]
  | succ f ih =>
    intro n hn
    match n with
    | 0 => simp [digitsLEAux]
    | m + 1 =>
      rw [digitsLEAux, Nat.digits_def' hb (Nat.succ_pos m)]
      have hdiv : (m + 1) / b < m + 1 := Nat.div_lt_self (Nat.succ_pos m) hb
      rw [ih ((m + 1) / b) (by omega)]

theorem digitsLE_eq_digits (b n : Nat) (hb : 1 < b) :
    digitsLE b n = Nat.digits b n :=
  digitsLEAux_eq_digits b hb n n le_rfl

theorem parseDigits_map (dv : Char → Option Nat) (dc : Nat → Char) :
    ∀ ds : List Nat, (∀ d ∈ ds, dv (dc d) = some d) →
      parseDigits dv (ds.map dc) = some ds := by
  intro ds
  induction ds with
  | nil => intro _; rfl
  | cons d t ih =>
    intro h
    simp only [List.map_cons, parseDigits]
    rw [h d (List.mem_cons_self d t), ih (fun x hx => h x (List.mem_cons_of_mem d hx))]

theorem hexDigitVal_hexDigitChar : ∀ d, d < 16 → hexDigitVal? (hexDigitChar d) = some d := by
  decide

theorem decDigitVal_decDigitChar : ∀ d, d < 10 → decDigitVal? (decDigitChar d) = some d := by
  decide

theorem ofDigits_replicate_zero (b k : Nat) :
    Nat.ofDigits b (List.replicate k 0) = 0 := by
  induction k with
  | zero => rfl
  | succ k ih => simp [List.replicate_succ, Nat.ofDigits_cons, ih]

theorem pyInt10_decStr (x : Nat) : pyInt10 (decStr x).data = some x := by
  by_cases hx : x = 0
  · subst hx; decide
  · have hd : digitsLE 10 x = Nat.digits 10 x := digitsLE_eq_digits 10 x (by norm_num)
    have hne : Nat.digits 10 x ≠ [] := Nat.digits_ne_nil_iff_ne_zero.mpr hx
    have hlt : ∀ d ∈ (Nat.digits 10 x).reverse, decDigitVal? (decDigitChar d) = some d := by
      intro d hdm
      exact decDigitVal_decDigitChar d (Nat.digits_lt_base (by norm_num) (List.mem_reverse.mp hdm))
    rw [decStr, if_neg hx, hd]
    show pyInt10 ((Nat.digits 10 x).reverse.map decDigitChar) = some x
    rw [pyInt10, parseDigits_map decDigitVal? decDigitChar _ hlt]
    have hne2 : ((Nat.digits 10 x).reverse : List Nat) ≠ [] := by
      simp [hne]
    simp [List.isEmpty_iff, hne2, List.reverse_reverse, Nat.ofDigits_digits]

theorem pyInt16_map_hexDigitChar (ds : List Nat) (h : ∀ d ∈ ds, d < 16) (hne : ds ≠ []) :
    pyInt16 (ds.map hexDigitChar) = some (Nat.ofDigits 16 ds.reverse) := by
  rw [pyInt16, parseDigits_map hexDigitVal? hexDigitChar ds
    (fun d hd => hexDigitVal_hexDigitChar d (h d hd))]
  simp [List.isEmpty_iff, hne]

theorem format08x_eq_map (x : Nat) :
    (format08x x).data =
      (List.replicate (8 - (digitsLE 16 x).length) 0 ++ (digitsLE 16 x).reverse).map
        hexDigitChar := by
  rw [format08x]
  simp only [List.map_append, List.map_replicate, List.length_map, List.length_reverse]
  rfl

theorem pyInt16_format08x (x : Nat) : pyInt16 (format08x x).data = some x := by
  by_cases hx : x = 0
  · subst hx; decide
  · have hd : digitsLE 16 x = Nat.digits 16 x := digitsLE_eq_digits 16 x (by norm_num)
    have hne : Nat.digits 16 x ≠ [] := Nat.digits_ne_nil_iff_ne_zero.mpr hx
    have hbound : ∀ d ∈ List.replicate (8 - (digitsLE 16 x).length) 0 ++
        (digitsLE 16 x).reverse, d < 16 := by
      intro d hdm
      rcases List.mem_append.mp hdm with h1 | h2
      · have := List.eq_of_mem_replicate h1; omega
      · rw [hd] at h2
        exact Nat.digits_lt_base (by norm_num) (List.mem_reverse.mp h2)
    have hne2 : List.replicate (8 - (digitsLE 16 x).length) 0 ++
        (digitsLE 16 x).reverse ≠ [] := by
      simp [hd, hne]
    rw [format08x_eq_map, pyInt16_map_hexDigitChar _ hbound hne2]
    rw [List.reverse_append, List.reverse_reverse, List.reverse_replicate, hd]
    rw [Nat.ofDigits_append, Nat.ofDigits_digits, ofDigits_replicate_zero]
    simp

theorem ofDigits16_inj (l1 : List Nat) :
    ∀ l2 : List Nat, l1.length = l2.length → (∀ d ∈ l1, d < 16) → (∀ d ∈ l2, d < 16) →
      Nat.ofDigits 16 l1 = Nat.ofDigits 16 l2 → l1 = l2 := by
  induction l1 with
  | nil =>
    intro l2 hlen _ _ _
    cases l2 with
    | nil => rfl
    | cons a b => simp at hlen
  | cons d t ih =>
    intro l2 hlen h1 h2 hv
    cases l2 with
    | nil => simp at hlen
    | cons d2 t2 =>
      rw [Nat.ofDigits_cons, Nat.ofDigits_cons] at hv
      have hd1 : d < 16 := h1 d (List.mem_cons_self _ _)
      have hd2 : d2 < 16 := h2 d2 (List.mem_cons_self _ _)
      have hcast : d + 16 * Nat.ofDigits 16 t = d2 + 16 * Nat.ofDigits 16 t2 := by
        exact_mod_cast hv
      have hdd : d = d2 := by omega
      have htt : Nat.ofDigits 16 t = Nat.ofDigits 16 t2 := by omega
      have hlen2 : t.length = t2.length := by simpa using hlen
      rw [hdd, ih t2 hlen2 (fun a ha => h1 a (List.mem_cons_of_mem _ ha))
        (fun a ha => h2 a (List.mem_cons_of_mem _ ha)) htt]

theorem digits16_len_le (x : Nat) (hx : x < 4294967296) :
    (Nat.digits 16 x).length ≤ 8 := by
  by_cases hx0 : x = 0
  · subst hx0; simp
  · by_contra h
    push_neg at h
    have h2 : (16 : Nat) ^ (Nat.digits 16 x).length ≤ 16 * x :=
      Nat.base_pow_length_digits_le 16 x (by norm_num) hx0
    have h3 : (16 : Nat) ^ 9 ≤ 16 ^ (Nat.digits 16 x).length :=
      Nat.pow_le_pow_right (by norm_num) (by omega)
    have h4 : (16 : Nat) ^ 9 = 16 * 4294967296 := by norm_num
    omega

theorem digits16_len_gt (x : Nat) (hx : 4294967296 ≤ x) :
    8 < (Nat.digits 16 x).length := by
  by_contra h
  push_neg at h
  have h1 : x < 16 ^ (Nat.digits 16 x).length :=
    Nat.lt_base_pow_length_digits (by norm_num)
  have h2 : (16 : Nat) ^ (Nat.digits 16 x).length ≤ 16 ^ 8 :=
    Nat.pow_le_pow_right (by norm_num) h
  have h3 : (16 : Nat) ^ 8 = 4294967296 := by norm_num
  omega

theorem hexChar_val_spec : ∀ c ∈ lowerHexChars,
    hexDigitVal? c = some (hexVal c) ∧ hexDigitChar (hexVal c) = c ∧ hexVal c < 16 := by
  decide

theorem parseDigits_lowerHex (cs : List Char) (h : ∀ c ∈ cs, c ∈ lowerHexChars) :
    parseDigits hexDigitVal? cs = some (cs.map hexVal) ∧
      (cs.map hexVal).map hexDigitChar = cs ∧ ∀ d ∈ cs.map hexVal, d < 16 := by
  induction cs with
  | nil => exact ⟨rfl, rfl, by simp⟩
  | cons c t ih =>
    have hc := hexChar_val_spec c (h c (List.mem_cons_self _ _))
    have ht := ih (fun x hx => h x (List.mem_cons_of_mem _ hx))
    refine ⟨?_, ?_, ?_⟩
    · simp only [parseDigits, List.map_cons]
      rw [hc.1, ht.1]
    · simp only [List.map_cons, hc.2.1, ht.2.1]
    · intro d hd
      simp only [List.map_cons, List.mem_cons] at hd
      rcases hd with rfl | hdm
      · exact hc.2.2
      · exact ht.2.2 d hdm

theorem roundtrip_uint (x : Nat) :
    (telegram_id_to_node_id (decStr x)).bind node_id_to_telegram_id = some (decStr x) := by
  rw [telegram_id_to_node_id, pyInt10_decStr, Option.map_some', Option.some_bind]
  rw [node_id_to_telegram_id]
  have hdrop : (String.mk ('!' :: (format08x x).data)).data.drop 1 = (format08x x).data := rfl
  rw [hdrop, pyInt16_format08x, Option.map_some']

theorem roundtrip_canonical (s : String) (h : isCanonicalNodeId s = true) :
    (node_id_to_telegram_id s).bind telegram_id_to_node_id = some s := by
  rcases hsd : s.data with _ | ⟨c, cs⟩
  · rw [isCanonicalNodeId, hsd] at h; simp at h
  · rw [isCanonicalNodeId, hsd] at h
    simp only [Bool.and_eq_true, beq_iff_eq, List.all_eq_true, decide_eq_true_eq] at h
    obtain ⟨⟨hc, hlen⟩, hall⟩ := h
    obtain ⟨hparse, hback, hlt⟩ := parseDigits_lowerHex cs hall
    have hcsne : cs ≠ [] := by
      intro hnil; rw [hnil] at hlen; simp at hlen
    -- the parsed value
    set ds : List Nat := cs.map hexVal with hds
    set x : Nat := Nat.ofDigits 16 ds.reverse with hxdef
    have hp16 : pyInt16 cs = some x := by
      rw [pyInt16, hparse]
      simp [List.isEmpty_iff, hds, List.map_eq_nil_iff, hcsne]
    have hdslen : ds.length = 8 := by rw [hds, List.length_map, hlen]
    have hxlt : x < 4294967296 := by
      have := Nat.ofDigits_lt_base_pow_length (b := 16) (l := ds.reverse)
        (by norm_num) (fun a ha => hlt a (List.mem_reverse.mp ha))
      rw [List.length_reverse, hdslen] at this
      exact_mod_cast this
    -- the formatted digits equal the original digits
    have hd16 : digitsLE 16 x = Nat.digits 16 x := digitsLE_eq_digits 16 x (by norm_num)
    have hlen16 : (Nat.digits 16 x).length ≤ 8 := digits16_len_le x hxlt
    have hfmtds : List.replicate (8 - (digitsLE 16 x).length) 0 ++
        (digitsLE 16 x).reverse = ds := by
      have hlenf : (List.replicate (8 - (digitsLE 16 x).length) 0 ++
          (digitsLE 16 x).reverse).length = 8 := by
        simp only [List.length_append, List.length_replicate, List.length_reverse, hd16]
        omega
      have hboundf : ∀ d ∈ List.replicate (8 - (digitsLE 16 x).length) 0 ++
          (digitsLE 16 x).reverse, d < 16 := by
        intro d hdm
        rcases List.mem_append.mp hdm with h1 | h2
        · have := List.eq_of_mem_replicate h1; omega
        · rw [hd16] at h2
          exact Nat.digits_lt_base (by norm_num) (List.mem_reverse.mp h2)
      have hvalf : Nat.ofDigits 16 (List.replicate (8 - (digitsLE 16 x).length) 0 ++
          (digitsLE 16 x).reverse).reverse = x := by
        rw [List.reverse_append, List.reverse_reverse, List.reverse_replicate, hd16]
        rw [Nat.ofDigits_append, Nat.ofDigits_digits, ofDigits_replicate_zero]
        simp
      have hrev : (List.replicate (8 - (digitsLE 16 x).length) 0 ++
          (digitsLE 16 x).reverse).reverse = ds.reverse := by
        apply ofDigits16_inj
        · simp only [List.length_reverse, hlenf, hdslen]
        · intro d hdm
          exact hboundf d (List.mem_reverse.mp hdm)
        · intro d hdm
          exact hlt d (List.mem_reverse.mp hdm)
        · rw [hvalf]
      have := congrArg List.reverse hrev
      simpa using this
    -- assemble
    rw [node_id_to_telegram_id, hsd]
    have hdrop : (c :: cs).drop 1 = cs := by simp
    rw [hdrop, hp16, Option.map_some', Option.some_bind]
    rw [telegram_id_to_node_id, pyInt10_decStr, Option.map_some']
    have hfmt : (format08x x).data = cs := by
      rw [format08x_eq_map, hfmtds, hback]
    rw [hfmt]
    congr 1
    cases s with
    | mk d =>
      simp only at hsd
      rw [hsd, hc]

/-! ## Registry lemmas -/

theorem pyDict_eq_none_of_not_mem_keys (l : List (String × String)) (k : String)
    (h : k ∉ l.map Prod.fst) : pyDict l k = none := by
  induction l with
  | nil => rfl
  | cons p t ih =>
    obtain ⟨k1, v1⟩ := p
    simp only [List.map_cons, List.mem_cons, not_or] at h
    rw [pyDict, ih h.2]
    exact if_neg (fun he => h.1 he.symm)

theorem pyDict_mem_of_nodup (l : List (String × String)) (n i : String)
    (hmem : (n, i) ∈ l) (hnd : (l.map Prod.fst).Nodup) : pyDict l n = some i := by
  induction l with
  | nil => cases hmem
  | cons p t ih =>
    obtain ⟨k1, v1⟩ := p
    simp only [List.map_cons, List.nodup_cons] at hnd
    rcases List.mem_cons.mp hmem with hpe | hmt
    · injection hpe with h1 h2
      subst h1; subst h2
      rw [pyDict, pyDict_eq_none_of_not_mem_keys t n hnd.1]
      simp
    · rw [pyDict, ih hmt hnd.2]


/-! ## Claims -/

/-- Claim C1: an inbound mesh event whose sender identifier has no entry in
the reverse whitelist view (`NODE_ID_TO_NAME`) produces zero outbound chat
calls.  The destination and payload are universally quantified, so the drop
is independent of them: the event is discarded before any decoding,
formatting, or handoff. -/
theorem mesh_drop_unauthorized_sender (p : Packet) (s : String)
    (hfrom : p.fromId = some s) (h : pyDict NODE_ID_TO_NAME s = none) :
    on_meshtastic_receive p = [] := by
  simp [on_meshtastic_receive, hfrom, h]

theorem mesh_drop_unauthorized_sender_witness :
    pyDict NODE_ID_TO_NAME "!12345678" = none ∧
    on_meshtastic_receive ⟨some "!12345678", some 7, some "hello"⟩ = [] :=
  ⟨by decide, mesh_drop_unauthorized_sender ⟨some "!12345678", some 7, some "hello"⟩
    "!12345678" rfl (by decide)⟩

/-- Claim C2: an inbound mesh event addressed to the broadcast sentinel
(numeric value 4294967295) produces zero outbound chat calls; the sender and
payload are universally quantified, so this holds in particular for a
whitelisted sender. -/
theorem mesh_drop_broadcast (p : Packet)
    (h : p.toDest = some MESHTASTIC_BROADCAST_ID) :
    on_meshtastic_receive p = [] := by
  rcases hf : p.fromId with _ | s
  · simp [on_meshtastic_receive, hf]
  · rcases hl : pyDict NODE_ID_TO_NAME s with _ | name
    · simp [on_meshtastic_receive, hf, hl]
    · simp [on_meshtastic_receive, hf, hl, h]

theorem mesh_drop_broadcast_witness :
    on_meshtastic_receive ⟨some "!deadbeef", some 4294967295, some "hello"⟩ = [] :=
  mesh_drop_broadcast ⟨some "!deadbeef", some 4294967295, some "hello"⟩ rfl

/-- Claim C3 counterexample: the claim says a send failure for one identifier
does not prevent the send to the other.  In the source the `for` loop over
`ALLOWED_NODES.values()` has no exception handling, so a raising
`iface.sendText` for the first identifier aborts the loop: with a failing
send to `"!deadbeef"`, the send to `"!42babe42"` is never attempted. -/
theorem telegram_all_send_failure_aborts :
    telegram_to_mesh 1 1 "@all ping" (fun d => d == "!deadbeef") =
      [("ping", "!deadbeef")] := by
  decide

/-- Claim C3 as amended: a chat message `"@all ping"` from the configured
group performs one send per registered identifier, in registry order, each
with body `"ping"`, provided no send raises; a raising send aborts the
remaining sends (see the counterexample). -/
theorem telegram_all_two_sends (groupId : Int) (fails : String → Bool)
    (h : ∀ d, fails d = false) :
    telegram_to_mesh groupId groupId "@all ping" fails =
      [("ping", "!deadbeef"), ("ping", "!42babe42")] := by
  have hne : ¬(groupId ≠ groupId) := by simp
  rw [telegram_to_mesh, if_neg hne]
  show (sendAllLoop fails ["!deadbeef", "!42babe42"]).map (fun d => ("ping", d)) = _
  simp [sendAllLoop, h]

theorem telegram_all_two_sends_witness :
    telegram_to_mesh 7 7 "@all ping" (fun _ => false) =
      [("ping", "!deadbeef"), ("ping", "!42babe42")] :=
  telegram_all_two_sends 7 (fun _ => false) (fun _ => rfl)

/-- Claim C4 counterexample: the claim says a registry with a duplicate
identifier can never be constructed or looked up (construction fails fast).
The source builds both views with plain dict construction (lines 43-49),
which cannot raise: from the duplicate-identifier mapping `dupIdRegistry`
the reverse view is built successfully and a lookup succeeds, the later
entry having silently overwritten the earlier one. -/
theorem registry_duplicate_id_lookup :
    pyDict (swapPairs dupIdRegistry) "!deadbeef" = some "B" := by
  decide

/-- Claim C4 as amended: registry construction never fails; a colliding key
silently keeps the last entry.  When the nicknames and the identifiers are
pairwise distinct — as in the configured `ALLOWED_NODES` — the two views are
consistent: each entry resolves forward and backward. -/
theorem registry_views_consistent (l : List (String × String)) (n i : String)
    (hmem : (n, i) ∈ l) (hn : (l.map Prod.fst).Nodup)
    (hi : (l.map Prod.snd).Nodup) :
    pyDict l n = some i ∧ pyDict (swapPairs l) i = some n := by
  constructor
  · exact pyDict_mem_of_nodup l n i hmem hn
  · apply pyDict_mem_of_nodup
    · exact List.mem_map.mpr ⟨(n, i), hmem, rfl⟩
    · simpa [swapPairs, List.map_map, Function.comp] using hi

theorem registry_views_consistent_witness :
    pyDict ALLOWED_NODES "MSH1" = some "!deadbeef" ∧
    pyDict (swapPairs ALLOWED_NODES) "!deadbeef" = some "MSH1" :=
  registry_views_consistent ALLOWED_NODES "MSH1" "!deadbeef" (by decide) (by decide)
    (by decide)

/-- Claim C5: the identifier codec round trips.  For every unsigned integer
x up to 0xFFFFFFFF, `node_id_to_telegram_id (telegram_id_to_node_id x) = x`
(values passed as their decimal strings, as in the source); and for every
node identifier in canonical form (marker plus exactly eight lowercase hex
digits), `telegram_id_to_node_id (node_id_to_telegram_id n) = n`. -/
theorem codec_round_trips :
    (∀ x : Nat, x ≤ 4294967295 →
      (telegram_id_to_node_id (decStr x)).bind node_id_to_telegram_id =
        some (decStr x)) ∧
    (∀ s : String, isCanonicalNodeId s = true →
      (node_id_to_telegram_id s).bind telegram_id_to_node_id = some s) :=
  ⟨fun x _ => roundtrip_uint x, roundtrip_canonical⟩

theorem codec_round_trips_witness :
    ((telegram_id_to_node_id (decStr 2183355078)).bind node_id_to_telegram_id =
      some (decStr 2183355078)) ∧
    ((node_id_to_telegram_id "!82235ac6").bind telegram_id_to_node_id =
      some "!82235ac6") :=
  ⟨codec_round_trips.1 2183355078 (by norm_num),
   codec_round_trips.2 "!82235ac6" (by decide)⟩

/-- Claim C6 counterexample: the claim says `telegram_id_to_node_id` fails
with `OutOfRange` for inputs above 0xFFFFFFFF and never returns an
identifier for them.  The source has no range check: at 0xFFFFFFFF + 1 =
4294967296 it returns the nine-digit string `"!100000000"` normally, because
Python `format(-, "08x")` pads but never truncates. -/
theorem telegram_id_overflow_returns_value :
    telegram_id_to_node_id "4294967296" = some "!100000000" := by
  decide

/-- Claim C6 as amended: `telegram_id_to_node_id` performs no range check.
For every input parsing to a value above 0xFFFFFFFF it returns (rather than
fails) the marker followed by the hex digits of the value, and that hex part
is longer than the canonical eight digits. -/
theorem telegram_id_no_range_check (s : String) (x : Nat)
    (hx : pyInt10 s.data = some x) (hgt : 4294967295 < x) :
    telegram_id_to_node_id s = some (String.mk ('!' :: (format08x x).data)) ∧
    8 < (format08x x).data.length := by
  constructor
  · rw [telegram_id_to_node_id, hx, Option.map_some']
  · rw [format08x_eq_map, List.length_map, List.length_append,
      List.length_replicate, List.length_reverse,
      digitsLE_eq_digits 16 x (by norm_num)]
    have := digits16_len_gt x (by omega)
    omega

theorem telegram_id_no_range_check_witness :
    telegram_id_to_node_id "4294967296" =
      some (String.mk ('!' :: (format08x 4294967296).data)) ∧
    8 < (format08x 4294967296).data.length :=
  telegram_id_no_range_check "4294967296" 4294967296 (by decide) (by norm_num)

/-- Claim C7 counterexample: the claim says the target token runs up to the
first whitespace character.  The source splits on the space character only
(`split(" ")`), so on `"@MSH2\tstatus"` — where the spec's parse yields the
registered target `"MSH2"` with nonempty body `"status"` and therefore one
send — the source includes the tab in the token, finds no body, and performs
zero sends. -/
theorem chat_parse_tab_divergence :
    specTargetToken (pyStrip "@MSH2\tstatus") = "MSH2" ∧
    specMessageBody (pyStrip "@MSH2\tstatus") = "status" ∧
    telegram_to_mesh_specParse 1 1 "@MSH2\tstatus" (fun _ => false) =
      [("status", "!42babe42")] ∧
    telegram_to_mesh 1 1 "@MSH2\tstatus" (fun _ => false) = [] := by
  decide

/-- Claim C7 as amended: for an inbound chat text starting with the directive
marker, the target token is the substring after the marker up to the first
space character (not any whitespace), the body is everything from two places
past the token's length on, and the relay performs zero sends when the
target token is empty or no body remains. -/
theorem chat_parse_drop_empty (groupId chatId : Int) (raw : String)
    (fails : String → Bool)
    (h : pyTargetToken (pyStrip raw) = "" ∨ pyMessageBody (pyStrip raw) = "") :
    telegram_to_mesh groupId chatId raw fails = [] := by
  rw [telegram_to_mesh]
  split
  · rfl
  · split
    · by_cases hb : pyMessageBody (pyStrip raw) = ""
      · simp [hb]
      · rcases h with ht | ht
        · have h1 : pyLower (pyTargetToken (pyStrip raw)) = "" := by rw [ht]; rfl
          have h2 : pyDict ALLOWED_NODES "" = none := by decide
          simp [hb, h1, ht, h2]
          intro hx
          exact absurd hx (by decide)
        · exact absurd ht hb
    · rfl

theorem chat_parse_drop_empty_witness :
    telegram_to_mesh 1 1 "@MSH1" (fun _ => false) = [] :=
  chat_parse_drop_empty 1 1 "@MSH1" (fun _ => false) (Or.inr (by decide))

/-- Claim C8: a mesh event from the whitelisted sender nicknamed `"MSH1"`
with payload decoding to `"hello"` and a non-broadcast destination produces
exactly one outbound chat call whose body is `"[MSH1] hello"`, the
composition `"[" + nickname + "] " + text`. -/
theorem mesh_relay_formats_message :
    on_meshtastic_receive ⟨some "!deadbeef", some 123456, some "hello"⟩ =
      ["[MSH1] hello"] := by
  decide

/-- Claim C9 counterexample: the claim says the reverse whitelist lookup
treats a sender identifier differing from a stored one only in hex-digit
case as the same whitelisted device.  The source compares dict keys exactly
and never normalizes case: `"!DEADBEEF"` has no entry in the reverse view,
and the event from it is dropped. -/
theorem whitelist_case_lookup_cex :
    pyDict NODE_ID_TO_NAME "!DEADBEEF" = none ∧
    on_meshtastic_receive ⟨some "!DEADBEEF", some 0, some "hello"⟩ = [] := by
  decide

/-- Claim C9 as amended: identifier comparison in the whitelist views is an
exact, case-sensitive string match with no normalization; the configured
identifiers happen to be stored lowercase, and a sender identifier that
differs from a stored one only in hex-digit case is treated as not
whitelisted and dropped. -/
theorem whitelist_lookup_exact_match :
    on_meshtastic_receive ⟨some "!deadbeef", some 0, some "hello"⟩ =
      ["[MSH1] hello"] ∧
    on_meshtastic_receive ⟨some "!DEADBEEF", some 0, some "hello"⟩ = [] ∧
    (∀ p ∈ NODE_ID_TO_NAME, pyLower p.1 = p.1) := by
  decide

/-- Claim C10: the mesh-to-chat handler is total over packets with missing
fields (in this embedding it returns a plain list of calls for every packet,
raising nothing).  A packet with no decoded payload defaults to empty text
and is dropped silently for any sender and destination; a packet lacking a
destination field is not treated as broadcast-addressed — from a whitelisted
sender with payload `"hello"` it is relayed. -/
theorem mesh_missing_fields_total (f : Option String) (d : Option Nat) :
    on_meshtastic_receive ⟨f, d, none⟩ = [] ∧
    on_meshtastic_receive ⟨some "!deadbeef", none, some "hello"⟩ =
      ["[MSH1] hello"] := by
  refine ⟨?_, by decide⟩
  rcases f with _ | s
  · simp [on_meshtastic_receive]
  · rcases hl : pyDict NODE_ID_TO_NAME s with _ | name
    · simp [on_meshtastic_receive, hl]
    · simp only [on_meshtastic_receive, hl, Option.getD_none]
      split
      · rfl
      · have hps : pyStrip "" = "" := by decide
        simp [hps]
